import Mathlib

/-!
Shallow embedding of the `vrf_rarity` Anchor program
(src/programs/vrf-rarity/src/lib.rs): a two-phase VRF rarity-roll protocol.

Modelling choices:
* Public keys (Solana `Pubkey`) are opaque 32-byte identities; we model them
  as natural numbers.  The trusted oracle identity
  `ephemeral_vrf_sdk::consts::VRF_PROGRAM_IDENTITY` is a fixed distinguished
  constant.
* The persisted ledger of `RarityResult` PDA accounts is an association list
  from derived addresses to records.  A PDA address is a deterministic
  injective function of the seeds `(RARITY_SEED, payer, nonce)`; since the
  `RARITY_SEED` domain tag is fixed, we model the address as the pair
  `(payer, nonce)` itself.
* Anchor account-constraint failures abort the instruction with no state
  change; we model each entry point as a function returning `Except`, where
  an error leaves the ledger untouched.  The error names follow the spec's
  taxonomy (the program itself declares no error enum; Anchor surfaces these
  as constraint or system-program errors).
* The PDA bump (`ctx.bumps.rarity_result`) is produced by the host runtime's
  address derivation, which is out of scope; it enters the model as an input.
-/

namespace VrfRarity

/-- The five rarity tiers.  The program stores them as `u8` codes; the
struct comment in the source fixes the encoding
`0=Common 1=Uncommon 2=Rare 3=Epic 4=Legendary`. -/
inductive Tier where
  | Common
  | Uncommon
  | Rare
  | Epic
  | Legendary
deriving DecidableEq, Repr

/-- The `u8` encoding of a tier used in the `rarity` field. -/
def Tier.code : Tier → Nat
  | .Common => 0
  | .Uncommon => 1
  | .Rare => 2
  | .Epic => 3
  | .Legendary => 4

/-- The tier classifier: the `if` chain in `callback_roll_rarity` mapping a
roll in `[0, 99]` to a rarity tier (source lines 63-74). -/
def classify (roll : Nat) : Tier :=
  if roll ≤ 49 then .Common
  else if roll ≤ 79 then .Uncommon
  else if roll ≤ 94 then .Rare
  else if roll ≤ 98 then .Epic
  else .Legendary

/-- The `RarityResult` account state (source lines 122-131).  Field names
and order follow the Rust struct. -/
structure RarityResult where
  player : Nat
  nonce : Nat
  rarity : Nat
  fulfilled : Bool
  roll_value : Nat
  bump : Nat
deriving DecidableEq, Repr

/-- Failure modes of the two entry points, named after the spec's error
taxonomy.  `DuplicateRequest` is Anchor's `init` failure when the PDA
already exists; `UntrustedCallback` is the `address =` constraint failure on
the VRF identity signer; `RecordNotFound` is the failure to load the
`rarity_result` account. -/
inductive VrfError where
  | DuplicateRequest
  | UntrustedCallback
  | RecordNotFound
deriving DecidableEq, Repr

/-- A derived PDA address, determined by the seeds `(payer, nonce)` under
the fixed `RARITY_SEED` domain tag. -/
abbrev Addr := Nat × Nat

/-- Deterministic record-address derivation from
`seeds = [RARITY_SEED, payer.key(), nonce.to_le_bytes()]`. -/
def recordAddress (player nonce : Nat) : Addr := (player, nonce)

/-- The persisted state: PDA address to `RarityResult` account. -/
abbrev Ledger := List (Addr × RarityResult)

/-- Look up the record stored at an address. -/
def findRecord : Ledger → Addr → Option RarityResult
  | [], _ => none
  | (a', r) :: rest, a => if a' = a then some r else findRecord rest a

/-- Overwrite the record stored at an address (used by the callback's
mutation of the already-existing `rarity_result` account). -/
def storeRecord : Ledger → Addr → RarityResult → Ledger
  | [], _, _ => []
  | (a', r) :: rest, a, r'' =>
      (if a' = a then (a, r'') else (a', r)) :: storeRecord rest a r''

/-- The trusted oracle identity
`ephemeral_vrf_sdk::consts::VRF_PROGRAM_IDENTITY`, an opaque public-key
constant, modelled as a fixed natural number. -/
def VRF_PROGRAM_IDENTITY : Nat := 42

/-- `nonce.to_le_bytes()`: the 8-byte little-endian encoding of a `u64`. -/
def nonceToLeBytes (nonce : Nat) : List Nat :=
  (List.range 8).map fun i => nonce / 256 ^ i % 256

/-- The 32-byte caller seed built in `roll_rarity` (source lines 26-27):
a zeroed 32-byte array whose first 8 bytes are overwritten with
`nonce.to_le_bytes()`. -/
def callerSeed (nonce : Nat) : List Nat :=
  nonceToLeBytes nonce ++ List.replicate 24 0

/-- The `roll_rarity` entry point (source lines 16-47).  Anchor's
`init` constraint fails if the PDA already holds an account (modelled as
`DuplicateRequest`); otherwise the fresh record is initialized field by
field as in the handler body, and a randomness request carrying the caller
seed is dispatched to the oracle (we return the seed as the observable part
of that outbound request). -/
def roll_rarity (l : Ledger) (payer nonce bump : Nat) :
    Except VrfError (Ledger × List Nat) :=
  match findRecord l (recordAddress payer nonce) with
  | some _ => .error .DuplicateRequest
  | none =>
      .ok ((recordAddress payer nonce,
        { player := payer
          nonce := nonce
          rarity := 0
          fulfilled := false
          roll_value := 0
          bump := bump }) :: l, callerSeed nonce)

/-- Modelled from the spec: `ephemeral_vrf_sdk::rnd::random_u8_with_range`
lives in the external oracle SDK crate, whose code is not part of this
repository.  The spec specifies only its surface contract: a deterministic
range reduction of the 32-byte randomness to a bounded integer in
`[min, max]`.  We model it as reduction of the leading byte into the
range. -/
def random_u8_with_range (randomness : List Nat) (mn mx : Nat) : Nat :=
  mn + randomness.headD 0 % (mx - mn + 1)

/-- The `callback_roll_rarity` entry point (source lines 51-84).  Anchor
first checks the `vrf_program_identity` signer against the trusted constant
(`UntrustedCallback` on mismatch), then loads the `rarity_result` account
(`RecordNotFound` if absent).  The handler body reduces the randomness to a
roll in `[0, 99]`, classifies it, and writes `rarity`, `roll_value` and
`fulfilled` into the record.  There is no check of the record's current
`fulfilled` flag. -/
def callback_roll_rarity (l : Ledger) (caller : Nat) (addr : Addr)
    (randomness : List Nat) : Except VrfError Ledger :=
  if caller = VRF_PROGRAM_IDENTITY then
    match findRecord l addr with
    | none => .error .RecordNotFound
    | some r =>
        let roll := random_u8_with_range randomness 0 99
        let rarity := (classify roll).code
        .ok (storeRecord l addr
          { r with rarity := rarity, roll_value := roll, fulfilled := true })
  else .error .UntrustedCallback

/-- An invocation of one of the two entry points. -/
inductive Op where
  | submit (payer nonce bump : Nat)
  | callback (caller : Nat) (addr : Addr) (randomness : List Nat)
deriving DecidableEq, Repr

/-- Apply one invocation to the ledger.  A failing invocation aborts with
no state change (Anchor transaction atomicity). -/
def applyOp (l : Ledger) : Op → Ledger
  | .submit p n b =>
      match roll_rarity l p n b with
      | .ok (l', _) => l'
      | .error _ => l
  | .callback c a rnd =>
      match callback_roll_rarity l c a rnd with
      | .ok l' => l'
      | .error _ => l

/-- Run a sequence of invocations from the empty ledger. -/
def run (ops : List Op) : Ledger := ops.foldl applyOp []

/-- Invariant: in any ledger reachable by the two entry points, a record
that is still pending (`fulfilled = false`) carries only the zeroed
sentinel result fields written at creation. -/
def pendingSentinel (l : Ledger) : Prop :=
  ∀ a r, findRecord l a = some r → r.fulfilled = false →
    r.rarity = 0 ∧ r.roll_value = 0

/-- Record update performed by the callback handler on record `r` with the
given randomness: classify the reduced roll and mark the record
fulfilled. -/
def fulfillUpdate (r : RarityResult) (randomness : List Nat) : RarityResult :=
  { r with
    rarity := (classify (random_u8_with_range randomness 0 99)).code
    roll_value := random_u8_with_range randomness 0 99
    fulfilled := true }

/-- Claim C5: the tier classifier is total on `[0, 99]`, its bands are
the contiguous non-overlapping intervals `[0,49]`, `[50,79]`, `[80,94]`,
`[95,98]`, `{99}` of sizes `{50, 30, 15, 4, 1}`, and the eight boundary
values classify exactly as stated. -/
theorem classify_partition_and_boundaries :
    (∀ roll : Fin 100,
      (classify roll.val = Tier.Common ↔ roll.val ≤ 49) ∧
      (classify roll.val = Tier.Uncommon ↔ (50 ≤ roll.val ∧ roll.val ≤ 79)) ∧
      (classify roll.val = Tier.Rare ↔ (80 ≤ roll.val ∧ roll.val ≤ 94)) ∧
      (classify roll.val = Tier.Epic ↔ (95 ≤ roll.val ∧ roll.val ≤ 98)) ∧
      (classify roll.val = Tier.Legendary ↔ roll.val = 99)) ∧
    ((Finset.range 100).filter (fun r => classify r = Tier.Common)).card = 50 ∧
    ((Finset.range 100).filter (fun r => classify r = Tier.Uncommon)).card = 30 ∧
    ((Finset.range 100).filter (fun r => classify r = Tier.Rare)).card = 15 ∧
    ((Finset.range 100).filter (fun r => classify r = Tier.Epic)).card = 4 ∧
    ((Finset.range 100).filter (fun r => classify r = Tier.Legendary)).card = 1 ∧
    classify 49 = Tier.Common ∧ classify 50 = Tier.Uncommon ∧
    classify 79 = Tier.Uncommon ∧ classify 80 = Tier.Rare ∧
    classify 94 = Tier.Rare ∧ classify 95 = Tier.Epic ∧
    classify 98 = Tier.Epic ∧ classify 99 = Tier.Legendary := by
  decide

/-- Witness for C5 at the concrete boundary roll 49. -/
theorem classify_partition_and_boundaries_witness :
    classify (49 : Fin 100).val = Tier.Common ↔ (49 : Fin 100).val ≤ 49 :=
  (classify_partition_and_boundaries.1 49).1

/-- Claim C1: a callback whose caller identity is not the trusted oracle
identity fails with `UntrustedCallback`, and the ledger — hence every field
of every record, whatever its state — is unchanged. -/
theorem untrusted_callback_rejected (l : Ledger) (caller : Nat) (a : Addr)
    (rnd : List Nat) (h : caller ≠ VRF_PROGRAM_IDENTITY) :
    callback_roll_rarity l caller a rnd = .error .UntrustedCallback ∧
    applyOp l (.callback caller a rnd) = l := by
  have hcb : callback_roll_rarity l caller a rnd = .error .UntrustedCallback := by
    simp [callback_roll_rarity, h]
  exact ⟨hcb, by simp [applyOp, hcb]⟩

/-- Witness for C1: caller 0 is not the oracle identity and is rejected on
a ledger holding a pending record. -/
theorem untrusted_callback_rejected_witness :
    callback_roll_rarity
        [((1, 0), ⟨1, 0, 0, false, 0, 255⟩)] 0 (1, 0) (List.replicate 32 5) =
      .error .UntrustedCallback ∧
    applyOp [((1, 0), ⟨1, 0, 0, false, 0, 255⟩)]
        (.callback 0 (1, 0) (List.replicate 32 5)) =
      [((1, 0), ⟨1, 0, 0, false, 0, 255⟩)] :=
  untrusted_callback_rejected [((1, 0), ⟨1, 0, 0, false, 0, 255⟩)] 0 (1, 0)
    (List.replicate 32 5) (by decide)

/-- Claim C3: after a successful `roll_rarity` for `(payer, nonce)`, a
second submission with the same pair fails with `DuplicateRequest`, the
ledger is unchanged (no second record created), and the first record is not
mutated. -/
theorem duplicate_submit_rejected (l : Ledger) (p n b : Nat) (l' : Ledger)
    (seed : List Nat) (h : roll_rarity l p n b = .ok (l', seed)) (b2 : Nat) :
    roll_rarity l' p n b2 = .error .DuplicateRequest ∧
    applyOp l' (.submit p n b2) = l' ∧
    findRecord l' (recordAddress p n) =
      some ⟨p, n, 0, false, 0, b⟩ := by
  unfold roll_rarity at h
  cases hf : findRecord l (recordAddress p n) with
  | some r => rw [hf] at h; exact absurd h (by simp)
  | none =>
      rw [hf] at h
      simp only [Except.ok.injEq, Prod.mk.injEq] at h
      obtain ⟨hl, _⟩ := h
      have hfind : findRecord l' (recordAddress p n) =
          some ⟨p, n, 0, false, 0, b⟩ := by
        rw [← hl]; simp [findRecord]
      have herr : roll_rarity l' p n b2 = .error .DuplicateRequest := by
        unfold roll_rarity
        rw [hfind]
      exact ⟨herr, by simp [applyOp, herr], hfind⟩

/-- Witness for C3: submitting `(payer 1, nonce 2)` twice on the empty
ledger. -/
theorem duplicate_submit_rejected_witness :
    roll_rarity [((1, 2), ⟨1, 2, 0, false, 0, 255⟩)] 1 2 254 =
      .error .DuplicateRequest ∧
    applyOp [((1, 2), ⟨1, 2, 0, false, 0, 255⟩)] (.submit 1 2 254) =
      [((1, 2), ⟨1, 2, 0, false, 0, 255⟩)] ∧
    findRecord [((1, 2), ⟨1, 2, 0, false, 0, 255⟩)] (recordAddress 1 2) =
      some ⟨1, 2, 0, false, 0, 255⟩ :=
  duplicate_submit_rejected [] 1 2 255 [((1, 2), ⟨1, 2, 0, false, 0, 255⟩)]
    (callerSeed 2) (by rfl) 254

/-- Claim C7: a successful `roll_rarity` call creates the record with
`status = Pending` (`fulfilled = false`), the caller's `payer` identity and
`nonce`, the supplied PDA bump, and zeroed result fields
(`rarity = 0`, `roll_value = 0`). -/
theorem submit_initializes_record (l : Ledger) (p n b : Nat)
    (h : findRecord l (recordAddress p n) = none) :
    ∃ seed, roll_rarity l p n b =
      .ok (((recordAddress p n), ⟨p, n, 0, false, 0, b⟩) :: l, seed) ∧
    findRecord (applyOp l (.submit p n b)) (recordAddress p n) =
      some ⟨p, n, 0, false, 0, b⟩ := by
  have hok : roll_rarity l p n b =
      .ok (((recordAddress p n), ⟨p, n, 0, false, 0, b⟩) :: l, callerSeed n) := by
    unfold roll_rarity
    rw [h]
  exact ⟨callerSeed n, hok, by simp [applyOp, hok, findRecord]⟩

/-- Witness for C7: submitting `(payer 5, nonce 6)` on the empty ledger. -/
theorem submit_initializes_record_witness :
    ∃ seed, roll_rarity [] 5 6 253 =
      .ok (((recordAddress 5 6), ⟨5, 6, 0, false, 0, 253⟩) :: [], seed) ∧
    findRecord (applyOp [] (.submit 5 6 253)) (recordAddress 5 6) =
      some ⟨5, 6, 0, false, 0, 253⟩ :=
  submit_initializes_record [] 5 6 253 (by decide)

theorem roll_rarity_of_vacant {l : Ledger} {p n : Nat} (b : Nat)
    (hf : findRecord l (recordAddress p n) = none) :
    roll_rarity l p n b =
      .ok ((recordAddress p n, ⟨p, n, 0, false, 0, b⟩) :: l, callerSeed n) := by
  unfold roll_rarity
  rw [hf]

theorem roll_rarity_of_occupied {l : Ledger} {p n : Nat} {r : RarityResult}
    (b : Nat) (hf : findRecord l (recordAddress p n) = some r) :
    roll_rarity l p n b = .error .DuplicateRequest := by
  unfold roll_rarity
  rw [hf]

theorem callback_of_untrusted {l : Ledger} {caller : Nat} (a : Addr)
    (rnd : List Nat) (hc : caller ≠ VRF_PROGRAM_IDENTITY) :
    callback_roll_rarity l caller a rnd = .error .UntrustedCallback := by
  simp [callback_roll_rarity, hc]

theorem callback_of_vacant {l : Ledger} {a : Addr} (rnd : List Nat)
    (hf : findRecord l a = none) :
    callback_roll_rarity l VRF_PROGRAM_IDENTITY a rnd =
      .error .RecordNotFound := by
  unfold callback_roll_rarity
  rw [if_pos rfl, hf]

theorem callback_of_present {l : Ledger} {a : Addr} {r : RarityResult}
    (rnd : List Nat) (hf : findRecord l a = some r) :
    callback_roll_rarity l VRF_PROGRAM_IDENTITY a rnd =
      .ok (storeRecord l a (fulfillUpdate r rnd)) := by
  unfold callback_roll_rarity
  rw [if_pos rfl, hf]
  rfl

theorem findRecord_storeRecord (l : Ledger) (a b : Addr)
    (r' : RarityResult) :
    findRecord (storeRecord l a r') b =
      if b = a then (findRecord l a).map (fun _ => r') else findRecord l b := by
  induction l with
  | nil => simp [storeRecord, findRecord]
  | cons p rest ih =>
      obtain ⟨a', r⟩ := p
      simp only [storeRecord] at ih ⊢
      by_cases h1 : a' = a
      · rw [if_pos h1]
        subst h1
        by_cases h2 : b = a'
        · subst h2
          simp [findRecord]
        · have h2' : ¬ a' = b := fun h => h2 h.symm
          simp [findRecord, h2, h2', ih]
      · rw [if_neg h1]
        by_cases h2 : a' = b
        · subst h2
          simp [findRecord, h1]
        · simp [findRecord, h1, h2, ih]

theorem roll_bounded (rnd : List Nat) : random_u8_with_range rnd 0 99 ≤ 99 := by
  unfold random_u8_with_range
  omega

/-- Claim C9: no callback invocation — accepted or rejected — changes the
record's `player` (requester identity), `nonce` or `bump` (address proof):
the callback writes only `rarity`, `roll_value` and `fulfilled`. -/
theorem callback_preserves_identity_fields (l : Ledger) (caller : Nat)
    (a : Addr) (rnd : List Nat) (r : RarityResult)
    (hr : findRecord l a = some r) :
    ∃ r', findRecord (applyOp l (.callback caller a rnd)) a = some r' ∧
      r'.player = r.player ∧ r'.nonce = r.nonce ∧ r'.bump = r.bump := by
  by_cases hc : caller = VRF_PROGRAM_IDENTITY
  · subst hc
    have hcb := callback_of_present (r := r) rnd hr
    refine ⟨fulfillUpdate r rnd, ?_, rfl, rfl, rfl⟩
    simp [applyOp, hcb, findRecord_storeRecord, hr]
  · have hcb := callback_of_untrusted (l := l) a rnd hc
    exact ⟨r, by simp [applyOp, hcb, hr], rfl, rfl, rfl⟩

/-- Witness for C9: a rejected callback (wrong caller 3) on a pending
record leaves its identity fields in place. -/
theorem callback_preserves_identity_fields_witness :
    ∃ r', findRecord (applyOp [((6, 1), ⟨6, 1, 0, false, 0, 252⟩)]
        (.callback 3 (6, 1) (List.replicate 32 9))) (6, 1) = some r' ∧
      r'.player = (⟨6, 1, 0, false, 0, 252⟩ : RarityResult).player ∧
      r'.nonce = (⟨6, 1, 0, false, 0, 252⟩ : RarityResult).nonce ∧
      r'.bump = (⟨6, 1, 0, false, 0, 252⟩ : RarityResult).bump :=
  callback_preserves_identity_fields [((6, 1), ⟨6, 1, 0, false, 0, 252⟩)] 3
    (6, 1) (List.replicate 32 9) ⟨6, 1, 0, false, 0, 252⟩ rfl

/-- Claim C6: an accepted callback on a pending record succeeds and, in one
transition, writes `roll_value` equal to the range reduction of the
randomness (which lies in `[0, 99]`), `rarity` equal to the classifier's
code for that roll, and `fulfilled = true`. -/
theorem fulfill_postcondition (l : Ledger) (a : Addr) (r : RarityResult)
    (rnd : List Nat) (_hlen : rnd.length = 32) (hr : findRecord l a = some r)
    (_hp : r.fulfilled = false) :
    ∃ l', callback_roll_rarity l VRF_PROGRAM_IDENTITY a rnd = .ok l' ∧
      findRecord l' a = some (fulfillUpdate r rnd) ∧
      (fulfillUpdate r rnd).roll_value = random_u8_with_range rnd 0 99 ∧
      (fulfillUpdate r rnd).roll_value ≤ 99 ∧
      (fulfillUpdate r rnd).rarity =
        (classify (fulfillUpdate r rnd).roll_value).code ∧
      (fulfillUpdate r rnd).fulfilled = true := by
  refine ⟨storeRecord l a (fulfillUpdate r rnd), callback_of_present rnd hr,
    ?_, rfl, roll_bounded rnd, rfl, rfl⟩
  simp [findRecord_storeRecord, hr]

/-- Witness for C6, the end-to-end scenario: submit `(identity 1, nonce 7)`
then fulfill with randomness reducing to roll 83, giving a fulfilled Rare
record with `roll_value = 83`. -/
theorem fulfill_postcondition_witness :
    (∃ l', callback_roll_rarity (run [Op.submit 1 7 254])
        VRF_PROGRAM_IDENTITY (recordAddress 1 7) (83 :: List.replicate 31 0) =
          .ok l' ∧
      findRecord l' (recordAddress 1 7) =
        some (fulfillUpdate ⟨1, 7, 0, false, 0, 254⟩
          (83 :: List.replicate 31 0)) ∧
      (fulfillUpdate (⟨1, 7, 0, false, 0, 254⟩ : RarityResult)
          (83 :: List.replicate 31 0)).roll_value =
        random_u8_with_range (83 :: List.replicate 31 0) 0 99 ∧
      (fulfillUpdate (⟨1, 7, 0, false, 0, 254⟩ : RarityResult)
          (83 :: List.replicate 31 0)).roll_value ≤ 99 ∧
      (fulfillUpdate (⟨1, 7, 0, false, 0, 254⟩ : RarityResult)
          (83 :: List.replicate 31 0)).rarity =
        (classify (fulfillUpdate (⟨1, 7, 0, false, 0, 254⟩ : RarityResult)
          (83 :: List.replicate 31 0)).roll_value).code ∧
      (fulfillUpdate (⟨1, 7, 0, false, 0, 254⟩ : RarityResult)
          (83 :: List.replicate 31 0)).fulfilled = true) ∧
    fulfillUpdate (⟨1, 7, 0, false, 0, 254⟩ : RarityResult)
        (83 :: List.replicate 31 0) =
      ⟨1, 7, (Tier.code Tier.Rare), true, 83, 254⟩ :=
  ⟨fulfill_postcondition (run [Op.submit 1 7 254]) (recordAddress 1 7)
    ⟨1, 7, 0, false, 0, 254⟩ (83 :: List.replicate 31 0) (by decide) rfl rfl,
   rfl⟩

/-- Claim C2 counterexample: on a record already fulfilled with roll 83
(Rare), a second callback with the correct oracle identity does not fail
with any error — it succeeds and rewrites the record to roll 7 (Common). -/
theorem refulfill_no_guard_cex :
    callback_roll_rarity
        (run [Op.submit 1 5 250,
              Op.callback VRF_PROGRAM_IDENTITY (recordAddress 1 5)
                (83 :: List.replicate 31 0)])
        VRF_PROGRAM_IDENTITY (recordAddress 1 5) (7 :: List.replicate 31 0) =
      .ok [((1, 5), ⟨1, 5, 0, true, 7, 250⟩)] ∧
    findRecord (run [Op.submit 1 5 250,
        Op.callback VRF_PROGRAM_IDENTITY (recordAddress 1 5)
          (83 :: List.replicate 31 0)]) (recordAddress 1 5) =
      some ⟨1, 5, 2, true, 83, 250⟩ := ⟨rfl, rfl⟩

/-- Claim C2 as amended: the code has no `AlreadyFulfilled` guard — a
callback with the correct oracle identity on an already-fulfilled record
succeeds again and overwrites `rarity` and `roll_value` from the new
randomness, leaving the record fulfilled. -/
theorem refulfill_overwrites (l : Ledger) (a : Addr) (r : RarityResult)
    (rnd : List Nat) (hr : findRecord l a = some r)
    (_hf : r.fulfilled = true) :
    callback_roll_rarity l VRF_PROGRAM_IDENTITY a rnd =
      .ok (storeRecord l a (fulfillUpdate r rnd)) ∧
    findRecord (applyOp l (.callback VRF_PROGRAM_IDENTITY a rnd)) a =
      some (fulfillUpdate r rnd) := by
  have hcb := callback_of_present (r := r) rnd hr
  exact ⟨hcb, by simp [applyOp, hcb, findRecord_storeRecord, hr]⟩

/-- Witness for C2's amended claim: re-fulfilling a Rare record with
randomness reducing to 7 succeeds and rewrites it to Common. -/
theorem refulfill_overwrites_witness :
    callback_roll_rarity [((3, 4), ⟨3, 4, 2, true, 90, 251⟩)]
        VRF_PROGRAM_IDENTITY (3, 4) (7 :: List.replicate 31 0) =
      .ok (storeRecord [((3, 4), ⟨3, 4, 2, true, 90, 251⟩)] (3, 4)
        (fulfillUpdate ⟨3, 4, 2, true, 90, 251⟩ (7 :: List.replicate 31 0))) ∧
    findRecord (applyOp [((3, 4), ⟨3, 4, 2, true, 90, 251⟩)]
        (.callback VRF_PROGRAM_IDENTITY (3, 4) (7 :: List.replicate 31 0)))
        (3, 4) =
      some (fulfillUpdate ⟨3, 4, 2, true, 90, 251⟩
        (7 :: List.replicate 31 0)) :=
  refulfill_overwrites [((3, 4), ⟨3, 4, 2, true, 90, 251⟩)] (3, 4)
    ⟨3, 4, 2, true, 90, 251⟩ (7 :: List.replicate 31 0) rfl rfl

/-- Claim C4 counterexample: after a record has been fulfilled with roll
90 (Rare), a further accepted callback rewrites `rarity` and `roll_value`
(to Common / 3), so these fields are not write-once. -/
theorem write_once_violated_cex :
    findRecord (run [Op.submit 2 9 255,
        Op.callback VRF_PROGRAM_IDENTITY (recordAddress 2 9)
          (90 :: List.replicate 31 0)]) (recordAddress 2 9) =
      some ⟨2, 9, 2, true, 90, 255⟩ ∧
    findRecord (run [Op.submit 2 9 255,
        Op.callback VRF_PROGRAM_IDENTITY (recordAddress 2 9)
          (90 :: List.replicate 31 0),
        Op.callback VRF_PROGRAM_IDENTITY (recordAddress 2 9)
          (3 :: List.replicate 31 0)]) (recordAddress 2 9) =
      some ⟨2, 9, 0, true, 3, 255⟩ := ⟨rfl, rfl⟩

/-- Claim C4 as amended: `fulfilled` is monotonic — once a record is
fulfilled, every further operation leaves it fulfilled — and `submit`
invocations never modify an existing record (only the callback handler
writes result fields); but the result fields are not write-once, as
further accepted callbacks rewrite them. -/
theorem fulfilled_monotonic (l : Ledger) (op : Op) (a : Addr)
    (r : RarityResult) (hr : findRecord l a = some r) :
    ∃ r', findRecord (applyOp l op) a = some r' ∧
      (r.fulfilled = true → r'.fulfilled = true) ∧
      (∀ p n b, op = .submit p n b → r' = r) := by
  cases op with
  | submit p n b =>
      refine ⟨r, ?_, fun h => h, fun _ _ _ _ => rfl⟩
      cases hf : findRecord l (recordAddress p n) with
      | some r2 =>
          simp [applyOp, roll_rarity_of_occupied b hf, hr]
      | none =>
          have hne : recordAddress p n ≠ a := by
            intro he
            rw [he, hr] at hf
            cases hf
          simp [applyOp, roll_rarity_of_vacant b hf, findRecord, hne, hr]
  | callback c a2 rnd =>
      by_cases hc : c = VRF_PROGRAM_IDENTITY
      · subst hc
        cases hf : findRecord l a2 with
        | none =>
            refine ⟨r, ?_, fun h => h, fun p n b hop => by cases hop⟩
            simp [applyOp, callback_of_vacant rnd hf, hr]
        | some r2 =>
            by_cases ha : a = a2
            · subst ha
              refine ⟨fulfillUpdate r2 rnd, ?_, fun _ => rfl,
                fun p n b hop => by cases hop⟩
              simp [applyOp, callback_of_present rnd hf,
                findRecord_storeRecord, hf]
            · refine ⟨r, ?_, fun h => h, fun p n b hop => by cases hop⟩
              simp [applyOp, callback_of_present rnd hf,
                findRecord_storeRecord, ha, hr]
      · refine ⟨r, ?_, fun h => h, fun p n b hop => by cases hop⟩
        simp [applyOp, callback_of_untrusted a2 rnd hc, hr]

/-- Witness for C4's amended claim: a fulfilled Rare record stays
fulfilled across a further accepted callback. -/
theorem fulfilled_monotonic_witness :
    ∃ r', findRecord (applyOp [((2, 2), ⟨2, 2, 2, true, 83, 255⟩)]
        (.callback VRF_PROGRAM_IDENTITY (2, 2) (7 :: List.replicate 31 0)))
        (2, 2) = some r' ∧
      ((⟨2, 2, 2, true, 83, 255⟩ : RarityResult).fulfilled = true →
        r'.fulfilled = true) ∧
      (∀ p n b, (Op.callback VRF_PROGRAM_IDENTITY (2, 2)
          (7 :: List.replicate 31 0)) = .submit p n b →
        r' = ⟨2, 2, 2, true, 83, 255⟩) :=
  fulfilled_monotonic [((2, 2), ⟨2, 2, 2, true, 83, 255⟩)]
    (.callback VRF_PROGRAM_IDENTITY (2, 2) (7 :: List.replicate 31 0))
    (2, 2) ⟨2, 2, 2, true, 83, 255⟩ rfl

theorem pendingSentinel_applyOp {l : Ledger} (h : pendingSentinel l)
    (op : Op) : pendingSentinel (applyOp l op) := by
  cases op with
  | submit p n b =>
      cases hf : findRecord l (recordAddress p n) with
      | some r2 =>
          simpa [applyOp, roll_rarity_of_occupied b hf] using h
      | none =>
          intro a r hr hfl
          rw [show applyOp l (.submit p n b) =
              (recordAddress p n, ⟨p, n, 0, false, 0, b⟩) :: l from by
            simp [applyOp, roll_rarity_of_vacant b hf]] at hr
          by_cases ha : recordAddress p n = a
          · rw [show findRecord ((recordAddress p n,
                (⟨p, n, 0, false, 0, b⟩ : RarityResult)) :: l) a =
                some ⟨p, n, 0, false, 0, b⟩ from by simp [findRecord, ha]]
              at hr
            injection hr with hr
            subst hr
            exact ⟨rfl, rfl⟩
          · rw [show findRecord ((recordAddress p n,
                (⟨p, n, 0, false, 0, b⟩ : RarityResult)) :: l) a =
                findRecord l a from by simp [findRecord, ha]] at hr
            exact h a r hr hfl
  | callback c a2 rnd =>
      by_cases hc : c = VRF_PROGRAM_IDENTITY
      · subst hc
        cases hf : findRecord l a2 with
        | none => simpa [applyOp, callback_of_vacant rnd hf] using h
        | some r2 =>
            intro a r hr hfl
            rw [show applyOp l (.callback VRF_PROGRAM_IDENTITY a2 rnd) =
                storeRecord l a2 (fulfillUpdate r2 rnd) from by
              simp [applyOp, callback_of_present rnd hf]] at hr
            rw [findRecord_storeRecord] at hr
            by_cases ha : a = a2
            · rw [if_pos ha, hf] at hr
              injection hr with hr
              subst hr
              cases hfl
            · rw [if_neg ha] at hr
              exact h a r hr hfl
      · simpa [applyOp, callback_of_untrusted a2 rnd hc] using h

theorem pendingSentinel_run (ops : List Op) : pendingSentinel (run ops) := by
  have hnil : pendingSentinel [] := by
    intro a r hr
    cases hr
  have hs : ∀ l, pendingSentinel l →
      pendingSentinel (List.foldl applyOp l ops) := by
    induction ops with
    | nil => exact fun l h => h
    | cons op rest ih =>
        exact fun l h => ih (applyOp l op) (pendingSentinel_applyOp h op)
  exact hs [] hnil

/-- Claim C10: the `Common` tier is encoded as 0, the same value the
sentinel `rarity` field holds in every reachable pending record, so the
`rarity` field alone cannot distinguish a pending record from a fulfilled
Common result — the concrete pending and fulfilled-Common records below
agree on `rarity` and differ only in the `fulfilled` flag, which is the
sole discriminator. -/
theorem rarity_sentinel_ambiguity :
    Tier.code Tier.Common = 0 ∧
    (∀ ops a r, findRecord (run ops) a = some r → r.fulfilled = false →
      r.rarity = 0 ∧ r.roll_value = 0) ∧
    findRecord (run [Op.submit 1 0 255]) (recordAddress 1 0) =
      some ⟨1, 0, 0, false, 0, 255⟩ ∧
    findRecord (run [Op.submit 1 0 255,
        Op.callback VRF_PROGRAM_IDENTITY (recordAddress 1 0)
          (10 :: List.replicate 31 0)]) (recordAddress 1 0) =
      some ⟨1, 0, 0, true, 10, 255⟩ :=
  ⟨rfl, fun ops a r => pendingSentinel_run ops a r, rfl, rfl⟩

/-- Witness for C10 at the pending record created by a single submit. -/
theorem rarity_sentinel_ambiguity_witness :
    (⟨1, 0, 0, false, 0, 255⟩ : RarityResult).rarity = 0 ∧
    (⟨1, 0, 0, false, 0, 255⟩ : RarityResult).roll_value = 0 :=
  rarity_sentinel_ambiguity.2.1 [Op.submit 1 0 255] (recordAddress 1 0)
    ⟨1, 0, 0, false, 0, 255⟩ rfl rfl

theorem roll_rarity_seed {l : Ledger} {p n b : Nat} {l' : Ledger}
    {seed : List Nat} (h : roll_rarity l p n b = .ok (l', seed)) :
    seed = callerSeed n := by
  cases hf : findRecord l (recordAddress p n) with
  | some r =>
      rw [roll_rarity_of_occupied b hf] at h
      exact absurd h (by simp)
  | none =>
      rw [roll_rarity_of_vacant b hf] at h
      simp only [Except.ok.injEq, Prod.mk.injEq] at h
      exact h.2.symm

/-- Claim C8: the caller seed dispatched by a successful `roll_rarity` is
derived deterministically from the nonce alone: it is 32 bytes, its first
8 bytes are the nonce's little-endian encoding (they reconstruct the
nonce in base 256), its remaining 24 bytes are zero, and every successful
submission with the same nonce produces the identical seed. -/
theorem caller_seed_le_encoding (l : Ledger) (p n b : Nat) (l' : Ledger)
    (seed : List Nat) (hn : n < 2 ^ 64)
    (h : roll_rarity l p n b = .ok (l', seed)) :
    seed.length = 32 ∧
    seed.take 8 = nonceToLeBytes n ∧
    seed.drop 8 = List.replicate 24 0 ∧
    (nonceToLeBytes n).foldr (fun byte acc => byte + 256 * acc) 0 = n ∧
    (∀ l2 p2 b2 l2' seed2, roll_rarity l2 p2 n b2 = .ok (l2', seed2) →
      seed2 = seed) := by
  have hseed : seed = callerSeed n := roll_rarity_seed h
  subst hseed
  refine ⟨?_, ?_, ?_, ?_, ?_⟩
  · simp [callerSeed, nonceToLeBytes]
  · exact List.take_left' (by simp [nonceToLeBytes])
  · exact List.drop_left' (by simp [nonceToLeBytes])
  · rw [nonceToLeBytes, show List.range 8 = [0, 1, 2, 3, 4, 5, 6, 7] from rfl]
    simp only [List.map_cons, List.map_nil, List.foldr_cons, List.foldr_nil]
    norm_num at hn ⊢
    omega
  · intro l2 p2 b2 l2' seed2 h2
    exact roll_rarity_seed h2

/-- Witness for C8 at nonce 7. -/
theorem caller_seed_le_encoding_witness :
    (callerSeed 7).length = 32 ∧
    (callerSeed 7).take 8 = nonceToLeBytes 7 ∧
    (callerSeed 7).drop 8 = List.replicate 24 0 ∧
    (nonceToLeBytes 7).foldr (fun byte acc => byte + 256 * acc) 0 = 7 ∧
    (∀ l2 p2 b2 l2' seed2, roll_rarity l2 p2 7 b2 = .ok (l2', seed2) →
      seed2 = callerSeed 7) :=
  caller_seed_le_encoding [] 9 7 249
    ((recordAddress 9 7, ⟨9, 7, 0, false, 0, 249⟩) :: []) (callerSeed 7)
    (by norm_num) rfl

end VrfRarity
